import Mathlib

/-!
Verification of the interband sideband-messaging library (`interband.go`).

The Go source is shallowly embedded: strings are Lean `String`s (lists of
code points; for the data handled here this coincides with Go's byte
strings, since code-point order and UTF-8 byte order agree), Go
`time.Time`/`time.Duration` values are `Int` nanoseconds, JSON values are
the inductive `JVal`, and the effectful functions `Write` and
`PruneChannel` are pure functions over an explicit model of the relevant
filesystem state that additionally report the trace of mutating
operations they perform.
-/

namespace Interband

/-! ## Character and string helpers

`goIsSpace` models Go's `unicode.IsSpace`: the Unicode White_Space code
points (U+0009–U+000D, U+0020, U+0085, U+00A0, U+1680, U+2000–U+200A,
U+2028, U+2029, U+202F, U+205F, U+3000). -/

def goIsSpace (c : Char) : Bool :=
  decide (9 ≤ c.toNat ∧ c.toNat ≤ 13) || decide (c.toNat = 32) ||
  decide (c.toNat = 133) || decide (c.toNat = 160) ||
  decide (c.toNat = 0x1680) || decide (0x2000 ≤ c.toNat ∧ c.toNat ≤ 0x200A) ||
  decide (c.toNat = 0x2028) || decide (c.toNat = 0x2029) ||
  decide (c.toNat = 0x202F) || decide (c.toNat = 0x205F) ||
  decide (c.toNat = 0x3000)

/-- Model of Go `strings.TrimSpace`: drop leading and trailing
White_Space characters. -/
def trimSpace (s : String) : String :=
  String.mk (((s.data.dropWhile goIsSpace).reverse.dropWhile goIsSpace).reverse)

/-- Model of Go `strings.HasPrefix` (byte prefix; on valid UTF-8 this is
the code-point prefix relation). -/
def goStartsWith (s pre : String) : Bool :=
  pre.data.isPrefixOf s.data

/-- Partial model of Go `fmt` `%q`: plain quoting, without the escaping
Go applies to quotes, backslashes and non-printable runes. It only
shapes error-message text; no claim statement depends on the precise
message bytes, only on errors being propagated and compared within this
development. -/
def goQuote (s : String) : String :=
  "\"" ++ s ++ "\""

/-! ## PathResolver: SafeKey (interband.go lines 55–75)

The character classes of the Go `switch` are expressed on `Char.toNat`:
47 is the path separator `/`, 97–122 is `a`–`z`, 65–90 is `A`–`Z`,
48–57 is `0`–`9`, and 46/95/45 are `.`/`_`/`-`. -/

def isSafeChar (c : Char) : Bool :=
  decide (97 ≤ c.toNat ∧ c.toNat ≤ 122) || decide (65 ≤ c.toNat ∧ c.toNat ≤ 90) ||
  decide (48 ≤ c.toNat ∧ c.toNat ≤ 57) ||
  decide (c.toNat = 46) || decide (c.toNat = 95) || decide (c.toNat = 45)

/-- One rune of the `SafeKey` loop: `/` and whitespace become `_`,
characters in `[A-Za-z0-9._-]` pass through, everything else becomes `_`. -/
def safeKeyChar (c : Char) : Char :=
  if c.toNat = 47 || goIsSpace c then '_'
  else if isSafeChar c then c
  else '_'

/-- `SafeKey` (interband.go): map every rune through `safeKeyChar`; an
empty result becomes the literal `"default"`. -/
def SafeKey (raw : String) : String :=
  if String.mk (raw.data.map safeKeyChar) = "" then "default"
  else String.mk (raw.data.map safeKeyChar)

/-! ## JSON values and payloads

`JVal` is the universe of decoded JSON values (`map[string]any` values in
the Go source). Go numbers of any numeric type (`int…`, `uint…`,
`float…`, `json.Number`) are collapsed into `JVal.num : Rat`, which is
what the schema checks distinguish. A `Payload` is the decoded object:
an association list of distinct keys; a key bound to `JVal.null` models
a Go map entry holding a nil value, while an absent key models a missing
entry (a Go map lookup then yields the nil interface value, which every
type assertion rejects — modelled by `getKey` returning `JVal.null`). -/

inductive JVal where
  | null : JVal
  | bool : Bool → JVal
  | num : Rat → JVal
  | str : String → JVal
  | arr : List JVal → JVal
  | obj : List (String × JVal) → JVal

def Payload : Type := List (String × JVal)

/-- Go `payload[k]`: the zero value (nil interface) of a missing key is
`JVal.null`, which fails every type assertion just as nil does. -/
def getKey (p : Payload) (k : String) : JVal :=
  match List.lookup k p with
  | some v => v
  | none => JVal.null

/-- `isNonEmptyString` (interband.go lines 363–366): a string whose
`TrimSpace` is non-empty. -/
def isNonEmptyString (v : JVal) : Bool :=
  match v with
  | JVal.str s => trimSpace s ≠ ""
  | _ => false

/-- `isNumber` (interband.go lines 368–377): any numeric representation. -/
def isNumber (v : JVal) : Bool :=
  match v with
  | JVal.num _ => true
  | _ => false

/-- `isNonNegativeNumber` (interband.go lines 379–403). -/
def isNonNegativeNumber (v : JVal) : Bool :=
  match v with
  | JVal.num q => 0 ≤ q
  | _ => false

/-- `allowedPhases` (interband.go lines 26–35), the set modelled as a
list. -/
def allowedPhases : List String :=
  ["brainstorm", "brainstorm-reviewed", "strategized", "planned",
   "plan-reviewed", "executing", "shipping", "done"]

/-- The `reason` check of the `interphase:bead_phase` case (lines
108–112): present, non-nil and not a string. -/
def reasonBad (p : Payload) : Bool :=
  match List.lookup "reason" p with
  | some JVal.null => false
  | some (JVal.str _) => false
  | some _ => true
  | none => false

/-- The `interphase:bead_phase` case of `ValidatePayload` (lines 97–115). -/
def validateBeadPhase (p : Payload) : Except String Unit :=
  if !isNonEmptyString (getKey p "id") then
    Except.error "interphase/bead_phase: id must be a non-empty string"
  else
    match getKey p "phase" with
    | JVal.str phase =>
      if phase = "" then
        Except.error "interphase/bead_phase: phase must be a non-empty string"
      else if !(allowedPhases.contains phase) then
        Except.error ("interphase/bead_phase: unknown phase " ++ goQuote phase)
      else if reasonBad p then
        Except.error "interphase/bead_phase: reason must be a string"
      else if !isNumber (getKey p "ts") then
        Except.error "interphase/bead_phase: ts must be numeric"
      else Except.ok ()
    | _ => Except.error "interphase/bead_phase: phase must be a non-empty string"

/-- The `clavain:dispatch` case of `ValidatePayload` (lines 116–126),
with the two `for` loops over field names unrolled. -/
def validateDispatch (p : Payload) : Except String Unit :=
  if !isNonEmptyString (getKey p "name") then
    Except.error "clavain/dispatch: name must be a non-empty string"
  else if !isNonEmptyString (getKey p "workdir") then
    Except.error "clavain/dispatch: workdir must be a non-empty string"
  else if !isNonEmptyString (getKey p "activity") then
    Except.error "clavain/dispatch: activity must be a non-empty string"
  else if !isNonNegativeNumber (getKey p "started") then
    Except.error "clavain/dispatch: started must be a non-negative number"
  else if !isNonNegativeNumber (getKey p "turns") then
    Except.error "clavain/dispatch: turns must be a non-negative number"
  else if !isNonNegativeNumber (getKey p "commands") then
    Except.error "clavain/dispatch: commands must be a non-negative number"
  else if !isNonNegativeNumber (getKey p "messages") then
    Except.error "clavain/dispatch: messages must be a non-negative number"
  else Except.ok ()

/-- The `interlock:coordination_signal` case of `ValidatePayload`
(lines 127–135), with the `for` loop unrolled. -/
def validateCoordinationSignal (p : Payload) : Except String Unit :=
  if !isNonEmptyString (getKey p "layer") then
    Except.error "interlock/coordination_signal: layer must be a non-empty string"
  else if !isNonEmptyString (getKey p "icon") then
    Except.error "interlock/coordination_signal: icon must be a non-empty string"
  else if !isNonEmptyString (getKey p "text") then
    Except.error "interlock/coordination_signal: text must be a non-empty string"
  else if !isNonEmptyString (getKey p "ts") then
    Except.error "interlock/coordination_signal: ts must be a non-empty string"
  else if !isNonNegativeNumber (getKey p "priority") then
    Except.error "interlock/coordination_signal: priority must be a non-negative number"
  else Except.ok ()

/-- `ValidatePayload` (interband.go lines 91–139): nil payloads are
rejected, then the contract is dispatched on `namespace + ":" + typ`;
unrecognized pairs validate successfully. -/
def ValidatePayload (ns typ : String) (payload : Option Payload) : Except String Unit :=
  match payload with
  | none => Except.error "payload must be an object"
  | some p =>
    if ns ++ ":" ++ typ = "interphase:bead_phase" then validateBeadPhase p
    else if ns ++ ":" ++ typ = "clavain:dispatch" then validateDispatch p
    else if ns ++ ":" ++ typ = "interlock:coordination_signal" then validateCoordinationSignal p
    else Except.ok ()

/-! ## Envelope (interband.go lines 16–24, 141–158)

Field names follow the Go struct; `Namespace` and `Type` are Lean
keywords, so they appear as `nspace` and `typ`. -/

structure Envelope where
  version : String
  nspace : String
  typ : String
  sessionID : String
  timestamp : String
  payload : Option Payload

/-- `ValidateEnvelope` (interband.go lines 141–158). -/
def ValidateEnvelope (env : Envelope) : Except String Unit :=
  if !goStartsWith env.version "1." then
    Except.error ("unsupported version " ++ goQuote env.version)
  else if trimSpace env.nspace = "" then Except.error "namespace is required"
  else if trimSpace env.typ = "" then Except.error "type is required"
  else if trimSpace env.timestamp = "" then Except.error "timestamp is required"
  else
    match env.payload with
    | none => Except.error "payload must be an object"
    | some _ => ValidatePayload env.nspace env.typ env.payload

/-- `ReadEnvelope` (interband.go lines 213–230). The combined outcome of
`os.ReadFile` + `json.Unmarshal` for the file at `sourcePath` is passed
in as `readResult` (`Except.error` for an I/O or parse failure,
`Except.ok env` for a successfully decoded envelope). -/
def ReadEnvelope (sourcePath : String) (readResult : Except String Envelope) :
    Except String Envelope :=
  if trimSpace sourcePath = "" then Except.error "source path is required"
  else
    match readResult with
    | Except.error e => Except.error e
    | Except.ok env =>
      match ValidateEnvelope env with
      | Except.error e => Except.error e
      | Except.ok _ => Except.ok env

/-- `ReadPayload` (interband.go lines 232–238). -/
def ReadPayload (sourcePath : String) (readResult : Except String Envelope) :
    Except String (Option Payload) :=
  match ReadEnvelope sourcePath readResult with
  | Except.error e => Except.error e
  | Except.ok env => Except.ok env.payload

/-! ## AtomicWriter: Write (interband.go lines 160–211)

`Write` is modelled as a pure function returning its result together
with the ordered trace of filesystem-mutating operations it performs.
The trace is empty exactly when nothing on disk is touched. The
JSON-encoding, temp-file-naming and clock details of the success path do
not matter to any claim, so the trace records the operations abstractly. -/

inductive FsOp where
  | mkdirAll : String → FsOp
  | createTemp : String → FsOp
  | writeTempFile : FsOp
  | closeTempFile : FsOp
  | rename : String → FsOp

/-- Model of Go `filepath.Dir` for cleaned paths: everything before the
last `/`, `"."` when there is no separator, `"/"` for a root-level path. -/
def goDir (path : String) : String :=
  match path.data.reverse.dropWhile (fun c => ¬ c = '/') with
  | [] => "."
  | _ :: [] => "/"
  | _ :: rest => String.mk rest.reverse

/-- `Write` (interband.go lines 160–211): argument checks, then
`ValidatePayload`, and only after both succeed the mkdir / temp-file /
encode / close / rename sequence (`sessionID` only flows into the
envelope contents, which no claim inspects). -/
def Write (targetPath ns typ sessionID : String) (payload : Option Payload) :
    Except String Unit × List FsOp :=
  if trimSpace targetPath = "" then (Except.error "target path is required", [])
  else if trimSpace ns = "" ∨ trimSpace typ = "" then
    (Except.error "namespace and type are required", [])
  else
    match ValidatePayload ns typ payload with
    | Except.error e => (Except.error e, [])
    | Except.ok _ =>
      (Except.ok (),
        [FsOp.mkdirAll (goDir targetPath), FsOp.createTemp (goDir targetPath),
         FsOp.writeTempFile, FsOp.closeTempFile, FsOp.rename targetPath])

/-! ## RetentionPruner configuration (interband.go lines 240–284, 405–436)

`parseEnvInt` reads and parses one environment variable; the process
environment is abstracted as `EnvInts`, mapping a variable name to
`some v` when the variable is set to a parseable integer and `none`
otherwise. Since `strconv.Atoi` fails outside int64 range, a faithful
environment takes values only in `[int64Min, int64Max]`; the
definitions are total on `Int` for convenience. -/

def EnvInts : Type := String → Option Int

/-- Model of Go `strings.ToUpper` as observed through `envSafeChar`:
ASCII lowercase letters are uppercased, and the two runes whose Unicode
simple uppercase mapping lands in `A`–`Z` — U+0131 dotless i (to `I`)
and U+017F long s (to `S`) — are mapped as Go maps them. Every other
rune either is already in `[A-Z0-9]` (and `ToUpper` fixes it) or has
its uppercase outside `[A-Z0-9]` (so `envSafeChar` sends both the rune
and its Go uppercase to `_`); the composition `envSafe` therefore
agrees with Go's. -/
def toUpperChar (c : Char) : Char :=
  if 97 ≤ c.toNat ∧ c.toNat ≤ 122 then Char.ofNat (c.toNat - 32)
  else if c.toNat = 0x131 then 'I'
  else if c.toNat = 0x17F then 'S'
  else c

/-- One rune of the `envSafe` loop: `[A-Z0-9]` passes, all else is `_`. -/
def envSafeChar (c : Char) : Char :=
  if (65 ≤ c.toNat ∧ c.toNat ≤ 90) ∨ (48 ≤ c.toNat ∧ c.toNat ≤ 57) then c else '_'

/-- `envSafe` (interband.go lines 425–436). -/
def envSafe (raw : String) : String :=
  String.mk ((raw.data.map toUpperChar).map envSafeChar)

/-- `retentionEnvKey` (interband.go lines 417–419). -/
def retentionEnvKey (ns ch : String) : String :=
  "INTERBAND_RETENTION_" ++ envSafe ns ++ "_" ++ envSafe ch ++ "_SECS"

/-- `maxFilesEnvKey` (interband.go lines 421–423). -/
def maxFilesEnvKey (ns ch : String) : String :=
  "INTERBAND_MAX_FILES_" ++ envSafe ns ++ "_" ++ envSafe ch

/-- `DefaultRetentionSeconds` (interband.go lines 240–251). -/
def DefaultRetentionSeconds (ns ch : String) : Int :=
  if ns ++ ":" ++ ch = "clavain:dispatch" then 21600
  else if ns ++ ":" ++ ch = "interlock:coordination" then 43200
  else if ns ++ ":" ++ ch = "interphase:bead" then 86400
  else 86400

/-- `DefaultMaxFiles` (interband.go lines 253–264). -/
def DefaultMaxFiles (ns ch : String) : Int :=
  if ns ++ ":" ++ ch = "clavain:dispatch" then 128
  else if ns ++ ":" ++ ch = "interlock:coordination" then 256
  else if ns ++ ":" ++ ch = "interphase:bead" then 256
  else 256

/-- `RetentionSeconds` (interband.go lines 266–274): per-channel env
override, then global env override, then the hardcoded default. -/
def RetentionSeconds (env : EnvInts) (ns ch : String) : Int :=
  match env (retentionEnvKey ns ch) with
  | some v => v
  | none =>
    match env "INTERBAND_RETENTION_SECS" with
    | some v => v
    | none => DefaultRetentionSeconds ns ch

/-- `MaxFiles` (interband.go lines 276–284). -/
def MaxFiles (env : EnvInts) (ns ch : String) : Int :=
  match env (maxFilesEnvKey ns ch) with
  | some v => v
  | none =>
    match env "INTERBAND_MAX_FILES" with
    | some v => v
    | none => DefaultMaxFiles ns ch

/-- `time.Second` in the `Int`-nanosecond model of `time.Duration`. -/
def nsPerSec : Int := 1000000000

/-- Lower bound of Go's 64-bit `int`/`time.Duration`. -/
def int64Min : Int := -9223372036854775808

/-- Upper bound of Go's 64-bit `int`/`time.Duration`. -/
def int64Max : Int := 9223372036854775807

/-- Two's-complement wraparound into int64 range: models overflow of Go
int64 arithmetic, in particular the `time.Duration(secs) * time.Second`
multiplications in `PruneChannel` (interband.go lines 306 and 312),
which wrap whenever `|secs| ≥ 9223372037`. Such seconds values are
reachable: `parseEnvInt` accepts any int64. -/
def wrapInt64 (n : Int) : Int :=
  (n + 2 ^ 63) % 2 ^ 64 - 2 ^ 63

/-- Go `time.Time.Sub`, used for file ages and the stamp gap: the
difference saturates at the `Duration` (int64 nanosecond) bounds
instead of wrapping. -/
def goSub (t u : Int) : Int :=
  max (min (t - u) int64Max) int64Min

/-- The throttle interval resolved by `PruneChannel` (interband.go lines
296–302): env-overridable, default 300 seconds, negative values clamped
to 0. -/
def resolvedPruneInterval (env : EnvInts) : Int :=
  max ((env "INTERBAND_PRUNE_INTERVAL_SECS").getD 300) 0

/-- The retention window resolved by `PruneChannel` (interband.go lines
312–315): the resolved retention seconds multiplied by `time.Second`
with int64 wraparound, then clamped below at 0. Note the clamp acts on
the already-wrapped product, so a large positive seconds value can wrap
negative and clamp to 0, and a large negative one can wrap positive and
escape the clamp. -/
def resolvedRetention (env : EnvInts) (ns ch : String) : Int :=
  max (wrapInt64 (RetentionSeconds env ns ch * nsPerSec)) 0

/-! ## RetentionPruner scan (interband.go lines 286–361) -/

/-- Model of Go `filepath.Ext`, walking the reversed rune list: the
suffix starting at the last dot, empty when a separator or the start of
the string is reached first. -/
def goExtRev (acc : List Char) : List Char → String
  | [] => ""
  | c :: rest =>
    if c = '/' then ""
    else if c = '.' then String.mk (c :: acc)
    else goExtRev (c :: acc) rest

def goExt (name : String) : String :=
  goExtRev [] name.data.reverse

/-- Model of Go `filepath.Join` for a clean directory and a plain entry
name. -/
def joinPath (dir name : String) : String :=
  dir ++ "/" ++ name

/-- One entry of `os.ReadDir`: its name, whether it is a directory,
whether it is a regular file (as opposed to, e.g., a symbolic link),
and the result of `entry.Info()` (`infoOk = false` models an `Info`
error, which makes the loop skip the entry; `modTime` is the file's
modification time in nanoseconds, meaningful when `infoOk`). The Go
loop never consults `isRegular` — it distinguishes only `IsDir()` — so
aged non-regular `.json` entries are deleted like regular ones. -/
structure DirEntry where
  name : String
  isDir : Bool
  isRegular : Bool
  infoOk : Bool
  modTime : Int

/-- The `fileInfo` record accumulated by the scan loop (interband.go
lines 317–320). -/
structure FileInfo where
  path : String
  modTime : Int

/-- The total preorder realized by `sort.Slice` with the comparator of
interband.go lines 350–355: `fileLE a b` holds when `a` need not come
after `b`, i.e. `a` has the later modification time, or equal times and
the path of `a` is not smaller (modification time descending, ties by
path descending). Since two entries of one directory cannot share a
path, the sorted output is uniquely determined even though `sort.Slice`
is unstable. -/
def fileLE (a b : FileInfo) : Prop :=
  b.modTime < a.modTime ∨ (a.modTime = b.modTime ∧ b.path ≤ a.path)

instance : DecidableRel fileLE := fun a b => by
  unfold fileLE
  infer_instance

instance : IsTotal FileInfo fileLE :=
  ⟨fun a b => by
    unfold fileLE
    rcases lt_trichotomy a.modTime b.modTime with h | h | h
    · exact Or.inr (Or.inl h)
    · rcases le_total b.path a.path with hp | hp
      · exact Or.inl (Or.inr ⟨h, hp⟩)
      · exact Or.inr (Or.inr ⟨h.symm, hp⟩)
    · exact Or.inl (Or.inl h)⟩

instance : IsTrans FileInfo fileLE :=
  ⟨fun a b c hab hbc => by
    unfold fileLE at *
    rcases hab with h1 | ⟨h1, hp1⟩ <;> rcases hbc with h2 | ⟨h2, hp2⟩
    · exact Or.inl (h2.trans h1)
    · exact Or.inl (h2 ▸ h1)
    · exact Or.inl (h1 ▸ h2)
    · exact Or.inr ⟨h1.trans h2, hp2.trans hp1⟩⟩

/-- Used only to state theorems: an entry the scan loop does not skip
outright — not a directory, `.json` extension, `Info()` succeeded. -/
def isCandidate (e : DirEntry) : Bool :=
  !e.isDir && (goExt e.name == ".json") && e.infoOk

/-- The entry loop of `PruneChannel` (interband.go lines 327–343):
returns the paths deleted by the age check (`age := now.Sub(mtime)`,
saturating) and the surviving `fileInfo`s, both in directory order. -/
def scanEntries (dir : String) (now retention : Int) :
    List DirEntry → List String × List FileInfo
  | [] => ([], [])
  | e :: rest =>
    let r := scanEntries dir now retention rest
    if e.isDir = true ∨ goExt e.name ≠ ".json" then r
    else if e.infoOk = false then r
    else if retention < goSub now e.modTime then (joinPath dir e.name :: r.1, r.2)
    else (r.1, FileInfo.mk (joinPath dir e.name) e.modTime :: r.2)

/-- The count-cap stage of `PruneChannel` (interband.go lines 345–359):
no deletion when the cap is non-positive or not exceeded; otherwise sort
the survivors newest-first (ties by path descending) and delete
everything beyond the cap. -/
def capDeletions (maxFiles : Int) (files : List FileInfo) : List String :=
  if maxFiles ≤ 0 ∨ (files.length : Int) ≤ maxFiles then []
  else ((List.insertionSort fileLE files).drop maxFiles.toNat).map (fun f => f.path)

/-- The filesystem state one `PruneChannel` call observes for its
channel: the resolved channel directory path `dir` (`Root()/ns/ch`),
whether `os.Stat(dir)` failed with not-exist, the stamp file's
modification time when `os.Stat(stamp)` succeeded, whether `os.ReadDir`
succeeded, and the directory entries it returned. -/
structure ChanState where
  dir : String
  dirNotExist : Bool
  stampMtime : Option Int
  readDirOk : Bool
  entries : List DirEntry

/-- The outcome of one `PruneChannel` call: the returned value, whether
the directory was scanned (`os.ReadDir` attempted), whether the stamp
write (`os.WriteFile`, error ignored) was attempted, and the paths
passed to `os.Remove`, in code order. -/
structure PruneOut where
  result : Except String Unit
  scanned : Bool
  stampWritten : Bool
  deleted : List String

/-- `PruneChannel` (interband.go lines 286–361) at time `now` (in
nanoseconds): blank-argument check from `ChannelDir`, not-exist
no-op, throttle check against the stamp, unconditional stamp rewrite,
age-based scan, then the count cap. The two `time.Duration`
multiplications wrap at int64 as in Go (`wrapInt64`), and the stamp gap
and file ages saturate as `time.Time.Sub` does (`goSub`). -/
def PruneChannel (env : EnvInts) (now : Int) (ns ch : String) (st : ChanState) : PruneOut :=
  if trimSpace ns = "" ∨ trimSpace ch = "" then
    PruneOut.mk (Except.error "namespace and channel are required") false false []
  else if st.dirNotExist = true then
    PruneOut.mk (Except.ok ()) false false []
  else if (match st.stampMtime with
      | some m => decide (goSub now m < wrapInt64 (resolvedPruneInterval env * nsPerSec))
      | none => false) = true then
    PruneOut.mk (Except.ok ()) false false []
  else if st.readDirOk = false then
    PruneOut.mk (Except.ok ()) true true []
  else
    PruneOut.mk (Except.ok ()) true true
      ((scanEntries st.dir now (resolvedRetention env ns ch) st.entries).1 ++
        capDeletions (MaxFiles env ns ch)
          (scanEntries st.dir now (resolvedRetention env ns ch) st.entries).2)

end Interband

namespace Interband

/-! ## Helper lemmas -/

theorem isSafeChar_safeKeyChar (c : Char) : isSafeChar (safeKeyChar c) = true := by
  unfold safeKeyChar
  split
  · decide
  · split
    · assumption
    · decide

theorem safeKeyChar_fixed (c : Char) (h : isSafeChar c = true) : safeKeyChar c = c := by
  have h' := h
  simp only [isSafeChar, Bool.or_eq_true, decide_eq_true_eq] at h'
  have h47 : ¬ (c.toNat = 47 || goIsSpace c) = true := by
    simp only [goIsSpace, Bool.or_eq_true, decide_eq_true_eq]
    omega
  unfold safeKeyChar
  rw [if_neg h47, if_pos h]

theorem map_safeKeyChar_fixed (l : List Char) (h : ∀ c ∈ l, isSafeChar c = true) :
    l.map safeKeyChar = l := by
  induction l with
  | nil => rfl
  | cons a t ih =>
    simp only [List.map_cons]
    rw [safeKeyChar_fixed a (h a (List.mem_cons_self a t)),
      ih (fun c hc => h c (List.mem_cons_of_mem a hc))]

/-- Splitting a list at a known-unique separator is unique. -/
theorem colon_split :
    ∀ (a c b d : List Char), ':' ∉ a → ':' ∉ c →
      a ++ ':' :: b = c ++ ':' :: d → a = c ∧ b = d := by
  intro a
  induction a with
  | nil =>
    intro c b d _ hc heq
    cases c with
    | nil => simpa using heq
    | cons y ys =>
      exfalso
      apply hc
      have : (':' : Char) = y := by simpa using congrArg (·.headI) heq
      rw [this]
      exact List.mem_cons_self y ys
  | cons x xs ih =>
    intro c b d ha hc heq
    cases c with
    | nil =>
      exfalso
      apply ha
      have : (x : Char) = ':' := by simpa using congrArg (·.headI) heq
      rw [← this]
      exact List.mem_cons_self x xs
    | cons y ys =>
      simp only [List.cons_append, List.cons.injEq] at heq
      obtain ⟨hxy, htail⟩ := heq
      have ha' : ':' ∉ xs := fun hm => ha (List.mem_cons_of_mem x hm)
      have hc' : ':' ∉ ys := fun hm => hc (List.mem_cons_of_mem y hm)
      obtain ⟨e1, e2⟩ := ih ys b d ha' hc' htail
      exact ⟨by rw [hxy, e1], e2⟩

/-- A `namespace + ":" + typ` dispatch key determines the pair uniquely
whenever the key being matched is colon-free on both sides of its single
colon. -/
theorem key_split (ns typ pre post : String)
    (hpre : ':' ∉ pre.data) (hpost : ':' ∉ post.data)
    (h : ns ++ ":" ++ typ = pre ++ ":" ++ post) : ns = pre ∧ typ = post := by
  have hd : ns.data ++ ':' :: typ.data = pre.data ++ ':' :: post.data := by
    have hcast := congrArg String.data h
    simpa [String.data_append] using hcast
  have hcount := congrArg (List.count ':') hd
  simp only [List.count_append, List.count_cons_self] at hcount
  have hpre0 : pre.data.count ':' = 0 := List.count_eq_zero.mpr hpre
  have hpost0 : post.data.count ':' = 0 := List.count_eq_zero.mpr hpost
  have hns : ':' ∉ ns.data := by
    apply List.count_eq_zero.mp
    omega
  obtain ⟨e1, e2⟩ := colon_split ns.data pre.data typ.data post.data hns hpre hd
  exact ⟨String.toList_inj.mp e1, String.toList_inj.mp e2⟩

end Interband

/-- C8: `SafeKey` is total, deterministic and idempotent: for every string
`x`, `SafeKey x` is a non-empty string consisting only of characters in
`[A-Za-z0-9._-]`, `SafeKey (SafeKey x) = SafeKey x`, `SafeKey "" = "default"`,
and `SafeKey "a/b c?d" = "a_b_c_d"`. -/
theorem Interband.safeKey_total_safe_idempotent :
    ∀ x : String,
      (Interband.SafeKey x ≠ "" ∧
        (∀ c ∈ (Interband.SafeKey x).data, Interband.isSafeChar c = true) ∧
        Interband.SafeKey (Interband.SafeKey x) = Interband.SafeKey x) ∧
      Interband.SafeKey "" = "default" ∧
      Interband.SafeKey "a/b c?d" = "a_b_c_d" := by
  intro x
  refine ⟨?_, by decide, by decide⟩
  by_cases h : String.mk (x.data.map Interband.safeKeyChar) = ""
  · rw [Interband.SafeKey, if_pos h]
    exact ⟨by decide, by decide, by decide⟩
  · rw [Interband.SafeKey, if_neg h]
    refine ⟨h, ?_, ?_⟩
    · intro c hc
      rcases List.mem_map.mp hc with ⟨c', _, rfl⟩
      exact Interband.isSafeChar_safeKeyChar c'
    · have hmap : (x.data.map Interband.safeKeyChar).map Interband.safeKeyChar =
          x.data.map Interband.safeKeyChar := by
        refine Interband.map_safeKeyChar_fixed _ ?_
        intro c hc
        rcases List.mem_map.mp hc with ⟨c', _, rfl⟩
        exact Interband.isSafeChar_safeKeyChar c'
      rw [Interband.SafeKey]
      simp only [hmap]
      rw [if_neg h]

/-- C8 witness: the theorem applied at `x = "a?b"`. -/
theorem Interband.safeKey_total_safe_idempotent_witness :
    Interband.SafeKey "a?b" ≠ "" ∧
      Interband.SafeKey (Interband.SafeKey "a?b") = Interband.SafeKey "a?b" :=
  ⟨(Interband.safeKey_total_safe_idempotent "a?b").1.1,
    (Interband.safeKey_total_safe_idempotent "a?b").1.2.2⟩

namespace Interband

theorem isNonEmptyString_iff (v : JVal) :
    isNonEmptyString v = true ↔ ∃ s, v = JVal.str s ∧ trimSpace s ≠ "" := by
  cases v <;> simp [isNonEmptyString]

theorem isNumber_iff (v : JVal) :
    isNumber v = true ↔ ∃ q, v = JVal.num q := by
  cases v <;> simp [isNumber]

theorem getKey_eq_str_iff (p : Payload) (k s : String) :
    getKey p k = JVal.str s ↔ List.lookup k p = some (JVal.str s) := by
  unfold getKey
  cases h : List.lookup k p <;> simp

theorem getKey_eq_num_iff (p : Payload) (k : String) (q : Rat) :
    getKey p k = JVal.num q ↔ List.lookup k p = some (JVal.num q) := by
  unfold getKey
  cases h : List.lookup k p <;> simp

theorem reasonBad_false_iff (p : Payload) :
    reasonBad p = false ↔
      ∀ v, List.lookup "reason" p = some v → v = JVal.null ∨ ∃ s, v = JVal.str s := by
  unfold reasonBad
  cases h : List.lookup "reason" p with
  | none => simp
  | some v => cases v <;> simp

theorem validateBeadPhase_ok_iff (p : Payload) :
    validateBeadPhase p = Except.ok () ↔
      (isNonEmptyString (getKey p "id") = true ∧
       (∃ ph, getKey p "phase" = JVal.str ph ∧ ph ≠ "" ∧ allowedPhases.contains ph = true) ∧
       reasonBad p = false ∧ isNumber (getKey p "ts") = true) := by
  cases hph : getKey p "phase" with
  | str phase =>
    unfold validateBeadPhase
    rw [hph]
    split_ifs with h1 h2 h3 <;>
      simp_all [Bool.not_eq_true', -Bool.not_eq_true] <;>
      split_ifs <;> simp_all
  | null =>
    unfold validateBeadPhase
    rw [hph]
    split_ifs <;> simp_all
  | bool b =>
    unfold validateBeadPhase
    rw [hph]
    split_ifs <;> simp_all
  | num q =>
    unfold validateBeadPhase
    rw [hph]
    split_ifs <;> simp_all
  | arr l =>
    unfold validateBeadPhase
    rw [hph]
    split_ifs <;> simp_all
  | obj l =>
    unfold validateBeadPhase
    rw [hph]
    split_ifs <;> simp_all

end Interband

/-- C6: for every `(namespace, type)` pair other than the three
recognized contracts `interphase:bead_phase`, `clavain:dispatch` and
`interlock:coordination_signal`, `ValidatePayload` succeeds iff the
payload is a non-null object, regardless of its contents. -/
theorem Interband.validatePayload_unknown_pair :
    ∀ (ns typ : String) (payload : Option Interband.Payload),
      ¬(ns = "interphase" ∧ typ = "bead_phase") →
      ¬(ns = "clavain" ∧ typ = "dispatch") →
      ¬(ns = "interlock" ∧ typ = "coordination_signal") →
      (Interband.ValidatePayload ns typ payload = Except.ok () ↔ payload ≠ none) := by
  intro ns typ payload h1 h2 h3
  have k1 : ns ++ ":" ++ typ ≠ "interphase:bead_phase" := fun h =>
    h1 (Interband.key_split ns typ "interphase" "bead_phase" (by decide) (by decide) h)
  have k2 : ns ++ ":" ++ typ ≠ "clavain:dispatch" := fun h =>
    h2 (Interband.key_split ns typ "clavain" "dispatch" (by decide) (by decide) h)
  have k3 : ns ++ ":" ++ typ ≠ "interlock:coordination_signal" := fun h =>
    h3 (Interband.key_split ns typ "interlock" "coordination_signal" (by decide) (by decide) h)
  cases payload with
  | none => simp [Interband.ValidatePayload]
  | some p => simp [Interband.ValidatePayload, k1, k2, k3]

/-- C6 witness: an unrecognized pair with an arbitrary object payload
validates successfully. -/
theorem Interband.validatePayload_unknown_pair_witness :
    ¬(("foo" : String) = "interphase" ∧ ("bar" : String) = "bead_phase") ∧
    Interband.ValidatePayload "foo" "bar" (some [("k", Interband.JVal.bool true)]) =
      Except.ok () :=
  ⟨by decide,
    (Interband.validatePayload_unknown_pair "foo" "bar" _
      (by decide) (by decide) (by decide)).mpr (by simp)⟩

/-- C7 counterexample: the claim states that `id` need only be a
non-empty string, but the code requires `TrimSpace(id)` to be non-empty.
The payload `{id: " ", phase: "done", ts: 1}` satisfies every condition
of the claim (`id` is the non-empty string `" "`, `phase` is in the
allowed set, `reason` is absent, `ts` is numeric), yet `ValidatePayload`
rejects it. -/
theorem Interband.validate_bead_phase_counterexample :
    (∃ s, List.lookup "id"
        [("id", Interband.JVal.str " "), ("phase", Interband.JVal.str "done"),
         ("ts", Interband.JVal.num 1)] = some (Interband.JVal.str s) ∧ s ≠ "") ∧
    (∃ ph, List.lookup "phase"
        [("id", Interband.JVal.str " "), ("phase", Interband.JVal.str "done"),
         ("ts", Interband.JVal.num 1)] = some (Interband.JVal.str ph) ∧
        ph ≠ "" ∧ ph ∈ Interband.allowedPhases) ∧
    (∀ v, List.lookup "reason"
        [("id", Interband.JVal.str " "), ("phase", Interband.JVal.str "done"),
         ("ts", Interband.JVal.num 1)] = some v →
        v = Interband.JVal.null ∨ ∃ s, v = Interband.JVal.str s) ∧
    (∃ q, List.lookup "ts"
        [("id", Interband.JVal.str " "), ("phase", Interband.JVal.str "done"),
         ("ts", Interband.JVal.num 1)] = some (Interband.JVal.num q)) ∧
    Interband.ValidatePayload "interphase" "bead_phase"
        (some [("id", Interband.JVal.str " "), ("phase", Interband.JVal.str "done"),
               ("ts", Interband.JVal.num 1)]) ≠ Except.ok () := by
  refine ⟨⟨" ", rfl, by decide⟩, ⟨"done", rfl, by decide, by decide⟩, ?_, ⟨1, rfl⟩, ?_⟩
  · intro v hv
    exact Option.noConfusion (show (none : Option Interband.JVal) = some v from hv)
  · intro h
    have hred : Interband.ValidatePayload "interphase" "bead_phase"
        (some [("id", Interband.JVal.str " "), ("phase", Interband.JVal.str "done"),
               ("ts", Interband.JVal.num 1)]) =
        Except.error "interphase/bead_phase: id must be a non-empty string" := rfl
    rw [hred] at h
    exact Except.noConfusion h

/-- C7 (amended): `ValidatePayload "interphase" "bead_phase" payload`
succeeds iff the payload is a non-null object in which `id` is a string
that is non-empty after trimming whitespace (non-blank), `phase` is a
non-empty string belonging to the fixed allowed set, `reason` — if
present and non-null — is a string, and `ts` is numeric. -/
theorem Interband.validate_bead_phase_iff :
    ∀ payload : Option Interband.Payload,
      Interband.ValidatePayload "interphase" "bead_phase" payload = Except.ok () ↔
      ∃ p, payload = some p ∧
        (∃ s, List.lookup "id" p = some (Interband.JVal.str s) ∧
          Interband.trimSpace s ≠ "") ∧
        (∃ ph, List.lookup "phase" p = some (Interband.JVal.str ph) ∧
          ph ≠ "" ∧ ph ∈ Interband.allowedPhases) ∧
        (∀ v, List.lookup "reason" p = some v →
          v = Interband.JVal.null ∨ ∃ s, v = Interband.JVal.str s) ∧
        (∃ q, List.lookup "ts" p = some (Interband.JVal.num q)) := by
  intro payload
  cases payload with
  | none =>
    constructor
    · intro h
      exact absurd h (by simp [Interband.ValidatePayload])
    · rintro ⟨p, hp, -⟩
      exact Option.noConfusion hp
  | some p =>
    have hred : Interband.ValidatePayload "interphase" "bead_phase" (some p) =
        Interband.validateBeadPhase p := by
      rfl
    rw [hred, Interband.validateBeadPhase_ok_iff]
    constructor
    · rintro ⟨hid, ⟨ph, hph, hne, hcont⟩, hreason, hts⟩
      refine ⟨p, rfl, ?_, ?_, ?_, ?_⟩
      · rcases (Interband.isNonEmptyString_iff _).mp hid with ⟨s, hv, hs⟩
        exact ⟨s, (Interband.getKey_eq_str_iff p "id" s).mp hv, hs⟩
      · exact ⟨ph, (Interband.getKey_eq_str_iff p "phase" ph).mp hph, hne,
          (List.elem_iff).mp hcont⟩
      · exact (Interband.reasonBad_false_iff p).mp hreason
      · rcases (Interband.isNumber_iff _).mp hts with ⟨q, hv⟩
        exact ⟨q, (Interband.getKey_eq_num_iff p "ts" q).mp hv⟩
    · rintro ⟨p', hp', ⟨s, hid, hs⟩, ⟨ph, hph, hne, hcont⟩, hreason, ⟨q, hts⟩⟩
      obtain rfl : p' = p := by injection hp' with h; exact h.symm
      refine ⟨?_, ⟨ph, (Interband.getKey_eq_str_iff p' "phase" ph).mpr hph, hne,
        (List.elem_iff).mpr hcont⟩, ?_, ?_⟩
      · exact (Interband.isNonEmptyString_iff _).mpr
          ⟨s, (Interband.getKey_eq_str_iff p' "id" s).mpr hid, hs⟩
      · exact (Interband.reasonBad_false_iff p').mpr hreason
      · exact (Interband.isNumber_iff _).mpr
          ⟨q, (Interband.getKey_eq_num_iff p' "ts" q).mpr hts⟩

/-- C7 witness: the amended characterization applied at a payload the
code accepts (`{id: "bead-1", phase: "done", ts: 3}`). -/
theorem Interband.validate_bead_phase_iff_witness :
    Interband.ValidatePayload "interphase" "bead_phase"
      (some [("id", Interband.JVal.str "bead-1"), ("phase", Interband.JVal.str "done"),
             ("ts", Interband.JVal.num 3)]) = Except.ok () :=
  (Interband.validate_bead_phase_iff _).mpr
    ⟨_, rfl, ⟨"bead-1", rfl, by decide⟩, ⟨"done", rfl, by decide, by decide⟩,
      fun v hv => Option.noConfusion
        (show (none : Option Interband.JVal) = some v from hv), ⟨3, rfl⟩⟩

/-- C5: `ValidateEnvelope env` succeeds iff `env.version` starts with
`"1."`, the namespace, type and timestamp fields are non-blank, the
payload is a non-null object, and the payload passes `ValidatePayload`
for `(namespace, type)`; consequently `ReadEnvelope` and `ReadPayload`
both reject any successfully parsed file whose envelope has version
`"2.0.0"` (whatever the path and the rest of the envelope). -/
theorem Interband.validateEnvelope_iff_version_gate :
    (∀ env : Interband.Envelope,
      Interband.ValidateEnvelope env = Except.ok () ↔
        (Interband.goStartsWith env.version "1." = true ∧
         Interband.trimSpace env.nspace ≠ "" ∧
         Interband.trimSpace env.typ ≠ "" ∧
         Interband.trimSpace env.timestamp ≠ "" ∧
         env.payload ≠ none ∧
         Interband.ValidatePayload env.nspace env.typ env.payload = Except.ok ())) ∧
    (∀ (path : String) (env : Interband.Envelope), env.version = "2.0.0" →
      (∃ e, Interband.ReadEnvelope path (Except.ok env) = Except.error e) ∧
      (∃ e, Interband.ReadPayload path (Except.ok env) = Except.error e)) := by
  constructor
  · intro env
    unfold Interband.ValidateEnvelope
    split_ifs with h1 h2 h3 h4
    · simp only [Bool.not_eq_true', Bool.not_eq_eq_eq_not] at h1
      simp [h1]
    · simp_all
    · simp_all
    · simp_all
    · cases hp : env.payload with
      | none =>
        simp only [Bool.not_eq_true', Bool.not_eq_eq_eq_not, Bool.not_true] at h1
        constructor
        · intro h
          exact absurd h (by simp)
        · rintro ⟨-, -, -, -, hnone, -⟩
          exact absurd rfl hnone
      | some p =>
        simp only [Bool.not_eq_true', Bool.not_eq_eq_eq_not, Bool.not_true,
          Bool.not_eq_false] at h1
        simp [h1, h2, h3, h4, hp]
  · intro path env hv
    have hval : ∃ e, Interband.ValidateEnvelope env = Except.error e := by
      refine ⟨"unsupported version " ++ Interband.goQuote env.version, ?_⟩
      unfold Interband.ValidateEnvelope
      rw [if_pos]
      rw [hv]
      decide
    rcases hval with ⟨e, he⟩
    by_cases hp : Interband.trimSpace path = ""
    · refine ⟨⟨"source path is required", ?_⟩, ⟨"source path is required", ?_⟩⟩
      · unfold Interband.ReadEnvelope
        rw [if_pos hp]
      · unfold Interband.ReadPayload Interband.ReadEnvelope
        rw [if_pos hp]
    · have hre : Interband.ReadEnvelope path (Except.ok env) = Except.error e := by
        simp [Interband.ReadEnvelope, hp, he]
      exact ⟨⟨e, hre⟩, ⟨e, by unfold Interband.ReadPayload; rw [hre]⟩⟩

/-- C5 witness: the version gate applied to a concrete envelope with
version `"2.0.0"`. -/
theorem Interband.validateEnvelope_iff_version_gate_witness :
    (Interband.Envelope.mk "2.0.0" "interphase" "bead_phase" "sess1"
        "2024-01-01T00:00:00Z" (some [])).version = "2.0.0" ∧
    (∃ e, Interband.ReadEnvelope "/tmp/f.json"
        (Except.ok (Interband.Envelope.mk "2.0.0" "interphase" "bead_phase" "sess1"
          "2024-01-01T00:00:00Z" (some []))) = Except.error e) :=
  ⟨rfl, (Interband.validateEnvelope_iff_version_gate.2 "/tmp/f.json" _ rfl).1⟩

namespace Interband

/-- `wrapInt64` is the identity on values already in int64 range. -/
theorem wrapInt64_eq_self (n : Int) (h1 : int64Min ≤ n) (h2 : n ≤ int64Max) :
    wrapInt64 n = n := by
  unfold wrapInt64
  unfold int64Min at h1
  unfold int64Max at h2
  omega

/-- The resolved throttle interval is never negative (clamped). -/
theorem resolvedPruneInterval_nonneg (env : EnvInts) :
    0 ≤ resolvedPruneInterval env :=
  le_max_right _ 0

/-- A saturating difference is below any non-negative in-range bound the
plain difference is below. -/
theorem goSub_lt_of_lt (t u P : Int) (h0 : 0 ≤ P)
    (h : t - u < P) : goSub t u < P := by
  unfold goSub
  apply max_lt
  · exact lt_of_le_of_lt (min_le_left _ _) h
  · exact lt_of_lt_of_le (by norm_num [int64Min]) h0

/-- A `PruneChannel` call with valid arguments, an existing directory,
a stale (or absent) stamp and a successful directory listing runs the
full scan-and-cap pass. -/
theorem pruneChannel_run (env : EnvInts) (now : Int) (ns ch : String) (st : ChanState)
    (h1 : trimSpace ns ≠ "") (h2 : trimSpace ch ≠ "")
    (h3 : st.dirNotExist = false)
    (h4 : ∀ m, st.stampMtime = some m →
      wrapInt64 (resolvedPruneInterval env * nsPerSec) ≤ goSub now m)
    (h5 : st.readDirOk = true) :
    PruneChannel env now ns ch st =
      PruneOut.mk (Except.ok ()) true true
        ((scanEntries st.dir now (resolvedRetention env ns ch) st.entries).1 ++
          capDeletions (MaxFiles env ns ch)
            (scanEntries st.dir now (resolvedRetention env ns ch) st.entries).2) := by
  have hth : (match st.stampMtime with
      | some m => decide (goSub now m < wrapInt64 (resolvedPruneInterval env * nsPerSec))
      | none => false) = false := by
    cases hm : st.stampMtime with
    | none => rfl
    | some m => simpa using not_lt.mpr (h4 m hm)
  unfold PruneChannel
  rw [if_neg (by simp [h1, h2]), if_neg (by simp [h3]), if_neg (by simp [hth]),
    if_neg (by simp [h5])]

/-- The scan loop deletes exactly the non-skipped entries older than the
retention window and keeps exactly the non-skipped entries within it. -/
theorem scanEntries_eq (dir : String) (now retention : Int) :
    ∀ entries : List DirEntry,
      scanEntries dir now retention entries =
        ((entries.filter
            (fun e => isCandidate e && decide (retention < goSub now e.modTime))).map
          (fun e => joinPath dir e.name),
         (entries.filter
            (fun e => isCandidate e && decide (goSub now e.modTime ≤ retention))).map
          (fun e => FileInfo.mk (joinPath dir e.name) e.modTime)) := by
  intro entries
  induction entries with
  | nil => rfl
  | cons e rest ih =>
    by_cases hd : e.isDir = true
    · simp [scanEntries, hd, ih, isCandidate, List.filter_cons]
    · by_cases hx : goExt e.name = ".json"
      · by_cases hi : e.infoOk = true
        · by_cases ht : retention < goSub now e.modTime
          · simp [scanEntries, hd, hx, hi, ht, ih, isCandidate, List.filter_cons,
              not_le.mpr ht]
          · simp [scanEntries, hd, hx, hi, ht, ih, isCandidate, List.filter_cons,
              not_lt.mp ht]
        · have hi' : e.infoOk = false := by simpa using hi
          simp [scanEntries, hd, hx, hi', ih, isCandidate, List.filter_cons]
      · simp [scanEntries, hd, hx, ih, isCandidate, List.filter_cons]

/-- Every path removed by the count cap is the path of one of the
surviving files. -/
theorem capDeletions_mem (cap : Int) (files : List FileInfo) (p : String)
    (hp : p ∈ capDeletions cap files) : ∃ f, f ∈ files ∧ p = f.path := by
  unfold capDeletions at hp
  split_ifs at hp with h
  · exact absurd hp (List.not_mem_nil p)
  · rcases List.mem_map.mp hp with ⟨f, hf, rfl⟩
    have hf' : f ∈ List.insertionSort fileLE files := List.mem_of_mem_drop hf
    exact ⟨f, (List.perm_insertionSort fileLE files).mem_iff.mp hf', rfl⟩

end Interband

/-- C1: whenever any of `targetPath`, `namespace`, `type` is blank, or
payload validation fails, `Write` returns that error and performs no
filesystem operation at all (empty mutation trace: no directory created,
no temporary file created, no rename onto `targetPath`). -/
theorem Interband.write_validation_failure_no_mutation :
    ∀ (targetPath ns typ sessionID : String) (payload : Option Interband.Payload),
      (Interband.trimSpace targetPath = "" →
        Interband.Write targetPath ns typ sessionID payload =
          (Except.error "target path is required", [])) ∧
      (Interband.trimSpace targetPath ≠ "" →
        (Interband.trimSpace ns = "" ∨ Interband.trimSpace typ = "") →
        Interband.Write targetPath ns typ sessionID payload =
          (Except.error "namespace and type are required", [])) ∧
      (Interband.trimSpace targetPath ≠ "" → Interband.trimSpace ns ≠ "" →
        Interband.trimSpace typ ≠ "" →
        ∀ e, Interband.ValidatePayload ns typ payload = Except.error e →
          Interband.Write targetPath ns typ sessionID payload = (Except.error e, [])) := by
  intro targetPath ns typ sessionID payload
  refine ⟨?_, ?_, ?_⟩
  · intro h
    unfold Interband.Write
    rw [if_pos h]
  · intro h1 h2
    unfold Interband.Write
    rw [if_neg h1, if_pos h2]
  · intro h1 h2 h3 e he
    unfold Interband.Write
    rw [if_neg h1, if_neg (by simp [h2, h3]), he]

/-- C1 witness: the spec's own example — writing `interphase:bead_phase`
with `phase = "not-a-phase"` fails before any file is created. -/
theorem Interband.write_validation_failure_no_mutation_witness :
    Interband.trimSpace "/tmp/x.json" ≠ "" ∧
    Interband.ValidatePayload "interphase" "bead_phase"
      (some [("id", Interband.JVal.str "b1"), ("phase", Interband.JVal.str "not-a-phase"),
             ("ts", Interband.JVal.num 1)]) =
      Except.error ("interphase/bead_phase: unknown phase " ++ Interband.goQuote "not-a-phase") ∧
    Interband.Write "/tmp/x.json" "interphase" "bead_phase" "sess1"
      (some [("id", Interband.JVal.str "b1"), ("phase", Interband.JVal.str "not-a-phase"),
             ("ts", Interband.JVal.num 1)]) =
      (Except.error ("interphase/bead_phase: unknown phase " ++ Interband.goQuote "not-a-phase"),
       []) :=
  ⟨by decide, rfl,
    (Interband.write_validation_failure_no_mutation "/tmp/x.json" "interphase" "bead_phase"
        "sess1" _).2.2 (by decide) (by decide) (by decide) _ rfl⟩

/-- C9: for every non-blank namespace and channel, `PruneChannel`
returns success regardless of filesystem outcomes — missing directory,
failed listing, and any combination of stamp/entry states are all
absorbed. -/
theorem Interband.pruneChannel_never_errors :
    ∀ (env : Interband.EnvInts) (now : Int) (ns ch : String) (st : Interband.ChanState),
      Interband.trimSpace ns ≠ "" → Interband.trimSpace ch ≠ "" →
      (Interband.PruneChannel env now ns ch st).result = Except.ok () := by
  intro env now ns ch st h1 h2
  unfold Interband.PruneChannel
  rw [if_neg (by simp [h1, h2])]
  split_ifs <;> rfl

/-- C9 witness: a state whose directory listing failed still yields
success. -/
theorem Interband.pruneChannel_never_errors_witness :
    Interband.trimSpace "interphase" ≠ "" ∧
    (Interband.PruneChannel (fun _ => none) 0 "interphase" "bead"
        (Interband.ChanState.mk "d" false none false [])).result = Except.ok () :=
  ⟨by decide,
    Interband.pruneChannel_never_errors (fun _ => none) 0 "interphase" "bead"
      (Interband.ChanState.mk "d" false none false []) (by decide) (by decide)⟩

/-- C4 counterexample: the claim as stated is false of the program.
With `INTERBAND_PRUNE_INTERVAL_SECS = 9223372037` the resolved interval
is 9223372037 seconds and a 100-second-old stamp is well within it, yet
Go's `time.Duration(interval) * time.Second` wraps negative at int64,
the throttle comparison fails, and the call scans the directory and
rewrites the stamp instead of returning immediately. -/
theorem Interband.pruneChannel_throttle_counterexample :
    Interband.resolvedPruneInterval
        (fun k => if k = "INTERBAND_PRUNE_INTERVAL_SECS" then some 9223372037 else none) =
      9223372037 ∧
    (100000000000 : Int) - 0 <
      Interband.resolvedPruneInterval
          (fun k => if k = "INTERBAND_PRUNE_INTERVAL_SECS" then some 9223372037 else none) *
        Interband.nsPerSec ∧
    Interband.PruneChannel
        (fun k => if k = "INTERBAND_PRUNE_INTERVAL_SECS" then some 9223372037 else none)
        100000000000 "interphase" "bead"
        (Interband.ChanState.mk "d" false (some 0) true []) =
      Interband.PruneOut.mk (Except.ok ()) true true [] :=
  ⟨by decide, by decide, by rfl⟩

/-- C4 (amended): when the prune stamp exists, `now − stamp-mtime` is
strictly below the resolved throttle interval, and the resolved
interval is at most 9223372036 seconds (so that its nanosecond
`time.Duration` does not overflow int64), `PruneChannel` returns
success immediately — no directory scan, no deletion, no stamp update.
Consequently a second call made at the time `now` at which the first
call (re)wrote the stamp is such a no-op whenever the (in-range)
interval is positive. The interval itself defaults to 300 seconds and
clamps negative overrides to 0. -/
theorem Interband.pruneChannel_throttle :
    ∀ (env : Interband.EnvInts) (now : Int) (ns ch : String)
      (st : Interband.ChanState) (m : Int),
      Interband.trimSpace ns ≠ "" → Interband.trimSpace ch ≠ "" →
      st.dirNotExist = false → st.stampMtime = some m →
      Interband.resolvedPruneInterval env ≤ 9223372036 →
      now - m < Interband.resolvedPruneInterval env * Interband.nsPerSec →
      (Interband.PruneChannel env now ns ch st =
        Interband.PruneOut.mk (Except.ok ()) false false []) ∧
      (∀ st' : Interband.ChanState, st'.dirNotExist = false →
        st'.stampMtime = some now → 0 < Interband.resolvedPruneInterval env →
        Interband.PruneChannel env now ns ch st' =
          Interband.PruneOut.mk (Except.ok ()) false false []) ∧
      (∀ e : Interband.EnvInts, e "INTERBAND_PRUNE_INTERVAL_SECS" = none →
        Interband.resolvedPruneInterval e = 300) ∧
      (∀ (e : Interband.EnvInts) (v : Int), e "INTERBAND_PRUNE_INTERVAL_SECS" = some v →
        v < 0 → Interband.resolvedPruneInterval e = 0) := by
  intro env now ns ch st m h1 h2 h3 h4 hb h5
  have hnn : 0 ≤ Interband.resolvedPruneInterval env :=
    Interband.resolvedPruneInterval_nonneg env
  have hprod0 : 0 ≤ Interband.resolvedPruneInterval env * Interband.nsPerSec :=
    mul_nonneg hnn (by norm_num [Interband.nsPerSec])
  have hprodMax : Interband.resolvedPruneInterval env * Interband.nsPerSec ≤
      Interband.int64Max := by
    have hstep : Interband.resolvedPruneInterval env * Interband.nsPerSec ≤
        9223372036 * Interband.nsPerSec :=
      mul_le_mul_of_nonneg_right hb (by norm_num [Interband.nsPerSec])
    calc Interband.resolvedPruneInterval env * Interband.nsPerSec ≤
        9223372036 * Interband.nsPerSec := hstep
      _ ≤ Interband.int64Max := by norm_num [Interband.nsPerSec, Interband.int64Max]
  have hprodMin : Interband.int64Min ≤
      Interband.resolvedPruneInterval env * Interband.nsPerSec :=
    le_trans (by norm_num [Interband.int64Min]) hprod0
  have hwrap : Interband.wrapInt64
      (Interband.resolvedPruneInterval env * Interband.nsPerSec) =
      Interband.resolvedPruneInterval env * Interband.nsPerSec :=
    Interband.wrapInt64_eq_self _ hprodMin hprodMax
  refine ⟨?_, ?_, ?_, ?_⟩
  · have hgate : Interband.goSub now m <
        Interband.wrapInt64 (Interband.resolvedPruneInterval env * Interband.nsPerSec) := by
      rw [hwrap]
      exact Interband.goSub_lt_of_lt now m _ hprod0 h5
    unfold Interband.PruneChannel
    rw [if_neg (by simp [h1, h2]), if_neg (by simp [h3]),
      if_pos (by rw [h4]; simpa using hgate)]
  · intro st' h3' h4' hpos
    have hgate' : Interband.goSub now now <
        Interband.wrapInt64 (Interband.resolvedPruneInterval env * Interband.nsPerSec) := by
      rw [hwrap]
      exact Interband.goSub_lt_of_lt now now _ hprod0
        (by simpa using mul_pos hpos (show (0 : Int) < Interband.nsPerSec by
          norm_num [Interband.nsPerSec]))
    unfold Interband.PruneChannel
    rw [if_neg (by simp [h1, h2]), if_neg (by simp [h3']),
      if_pos (by rw [h4']; simpa using hgate')]
  · intro e he
    unfold Interband.resolvedPruneInterval
    rw [he]
    decide
  · intro e v hev hneg
    unfold Interband.resolvedPruneInterval
    rw [hev]
    simp only [Option.getD_some]
    exact max_eq_right (by omega)

/-- C4 witness: a stamped channel within the default 300-second window
is left untouched. -/
theorem Interband.pruneChannel_throttle_witness :
    (Interband.ChanState.mk "d" false (some 50) true
        [Interband.DirEntry.mk "old.json" false true true 0]).stampMtime = some 50 ∧
    Interband.resolvedPruneInterval (fun _ => none) ≤ 9223372036 ∧
    (100 : Int) - 50 <
      Interband.resolvedPruneInterval (fun _ => none) * Interband.nsPerSec ∧
    Interband.PruneChannel (fun _ => none) 100 "interphase" "bead"
        (Interband.ChanState.mk "d" false (some 50) true
          [Interband.DirEntry.mk "old.json" false true true 0]) =
      Interband.PruneOut.mk (Except.ok ()) false false [] :=
  ⟨rfl, by decide, by decide,
    (Interband.pruneChannel_throttle (fun _ => none) 100 "interphase" "bead"
        (Interband.ChanState.mk "d" false (some 50) true
          [Interband.DirEntry.mk "old.json" false true true 0]) 50
        (by decide) (by decide) rfl rfl (by decide) (by decide)).1⟩

/-- C2: in a `PruneChannel` pass that reaches the count-cap stage, the
deletions are the age-based deletions followed by the cap deletions;
the cap stage deletes nothing when the resolved cap is ≤ 0 or the
survivor count is at or below it, and otherwise deletes exactly the
files beyond the cap in the order sorted by modification time descending
with ties broken by path descending (a sorted permutation of the
survivors). -/
theorem Interband.pruneChannel_count_cap :
    ∀ (env : Interband.EnvInts) (now : Int) (ns ch : String) (st : Interband.ChanState),
      Interband.trimSpace ns ≠ "" → Interband.trimSpace ch ≠ "" →
      st.dirNotExist = false →
      (∀ m, st.stampMtime = some m →
        Interband.wrapInt64 (Interband.resolvedPruneInterval env * Interband.nsPerSec) ≤
          Interband.goSub now m) →
      st.readDirOk = true →
      ((Interband.PruneChannel env now ns ch st).deleted =
        (Interband.scanEntries st.dir now
            (Interband.resolvedRetention env ns ch) st.entries).1 ++
          Interband.capDeletions (Interband.MaxFiles env ns ch)
            (Interband.scanEntries st.dir now
              (Interband.resolvedRetention env ns ch)
              st.entries).2) ∧
      (∀ files : List Interband.FileInfo,
        (Interband.MaxFiles env ns ch ≤ 0 ∨
            (files.length : Int) ≤ Interband.MaxFiles env ns ch) →
          Interband.capDeletions (Interband.MaxFiles env ns ch) files = []) ∧
      (∀ files : List Interband.FileInfo,
        0 < Interband.MaxFiles env ns ch →
        Interband.MaxFiles env ns ch < (files.length : Int) →
          Interband.capDeletions (Interband.MaxFiles env ns ch) files =
            ((List.insertionSort Interband.fileLE files).drop
              (Interband.MaxFiles env ns ch).toNat).map (fun f => f.path) ∧
          (List.insertionSort Interband.fileLE files).Perm files ∧
          (List.insertionSort Interband.fileLE files).Sorted Interband.fileLE) := by
  intro env now ns ch st h1 h2 h3 h4 h5
  refine ⟨?_, ?_, ?_⟩
  · rw [Interband.pruneChannel_run env now ns ch st h1 h2 h3 h4 h5]
  · intro files h
    unfold Interband.capDeletions
    rw [if_pos h]
  · intro files hpos hlen
    refine ⟨?_, List.perm_insertionSort Interband.fileLE files,
      List.sorted_insertionSort Interband.fileLE files⟩
    unfold Interband.capDeletions
    rw [if_neg (by push_neg; exact ⟨hpos, hlen⟩)]

/-- C2 witness: three fresh files under a cap of 2 — exactly the single
oldest file is removed. -/
theorem Interband.pruneChannel_count_cap_witness :
    Interband.MaxFiles
        (fun k => if k = "INTERBAND_MAX_FILES" then some 2 else none)
        "interphase" "bead" = 2 ∧
    (Interband.PruneChannel
        (fun k => if k = "INTERBAND_MAX_FILES" then some 2 else none) 5000
        "interphase" "bead"
        (Interband.ChanState.mk "d" false none true
          [Interband.DirEntry.mk "old.json" false true true 0,
           Interband.DirEntry.mk "mid.json" false true true 1000,
           Interband.DirEntry.mk "new.json" false true true 2000])).deleted =
      ["d/old.json"] := by
  refine ⟨by decide, ?_⟩
  have h := (Interband.pruneChannel_count_cap
      (fun k => if k = "INTERBAND_MAX_FILES" then some 2 else none) 5000
      "interphase" "bead"
      (Interband.ChanState.mk "d" false none true
        [Interband.DirEntry.mk "old.json" false true true 0,
         Interband.DirEntry.mk "mid.json" false true true 1000,
         Interband.DirEntry.mk "new.json" false true true 2000])
      (by decide) (by decide) rfl (fun m hm => Option.noConfusion hm) rfl).1
  exact h.trans (by decide)

/-- C3 counterexample: the claim as stated is false of the program, on
two counts. (a) With `INTERBAND_RETENTION_SECS = 9223372037`, a `.json`
file only one hour old — far inside the configured window — is deleted,
because Go's `time.Duration(retention) * time.Second` wraps negative at
int64 and is then clamped to a zero-length window; so ".json files
whose age is within the window are kept" fails. (b) Under the default
window, an aged `.json` entry that is not a regular file (a symlink:
`isDir = false`, `isRegular = false`) is deleted, because the loop
tests only `IsDir()`; so "exactly the regular files … are deleted"
fails. -/
theorem Interband.pruneChannel_retention_counterexample :
    Interband.RetentionSeconds
        (fun k => if k = "INTERBAND_RETENTION_SECS" then some 9223372037 else none)
        "interphase" "bead" = 9223372037 ∧
    Interband.goSub 1000000000000000 996400000000000 ≤
      9223372037 * Interband.nsPerSec ∧
    (Interband.PruneChannel
        (fun k => if k = "INTERBAND_RETENTION_SECS" then some 9223372037 else none)
        1000000000000000 "interphase" "bead"
        (Interband.ChanState.mk "d" false none true
          [Interband.DirEntry.mk "hour.json" false true true 996400000000000])).deleted =
      ["d/hour.json"] ∧
    (Interband.DirEntry.mk "link.json" false false true 0).isRegular = false ∧
    (Interband.PruneChannel (fun _ => none) 172800000000000 "interphase" "bead"
        (Interband.ChanState.mk "d" false none true
          [Interband.DirEntry.mk "link.json" false false true 0])).deleted =
      ["d/link.json"] :=
  ⟨by decide, by decide, by decide, rfl, by decide⟩

/-- C3 (amended): in a `PruneChannel` pass that gets past the throttle,
with the retention window computed as the program computes it (resolved
seconds times `time.Second` with int64 wraparound, then clamped below
at 0), the age-based step deletes exactly the non-directory `.json`
entries — regular or not, e.g. including symlinks — with a readable
mtime whose (saturating) age exceeds that window, keeps exactly the
other non-directory `.json` entries as cap candidates, and every
deleted path (age-based or cap-based) is the path of some non-directory
`.json` entry — so non-`.json` files, directories, and the
`.stamp`-suffixed prune stamp are never deleted. -/
theorem Interband.pruneChannel_retention :
    ∀ (env : Interband.EnvInts) (now : Int) (ns ch : String) (st : Interband.ChanState),
      Interband.trimSpace ns ≠ "" → Interband.trimSpace ch ≠ "" →
      st.dirNotExist = false →
      (∀ m, st.stampMtime = some m →
        Interband.wrapInt64 (Interband.resolvedPruneInterval env * Interband.nsPerSec) ≤
          Interband.goSub now m) →
      st.readDirOk = true →
      ((Interband.scanEntries st.dir now
          (Interband.resolvedRetention env ns ch) st.entries).1 =
        (st.entries.filter (fun e => Interband.isCandidate e &&
            decide (Interband.resolvedRetention env ns ch <
              Interband.goSub now e.modTime))).map
          (fun e => Interband.joinPath st.dir e.name)) ∧
      ((Interband.scanEntries st.dir now
          (Interband.resolvedRetention env ns ch) st.entries).2 =
        (st.entries.filter (fun e => Interband.isCandidate e &&
            decide (Interband.goSub now e.modTime ≤
              Interband.resolvedRetention env ns ch))).map
          (fun e => Interband.FileInfo.mk (Interband.joinPath st.dir e.name) e.modTime)) ∧
      ((Interband.PruneChannel env now ns ch st).deleted =
        (Interband.scanEntries st.dir now
            (Interband.resolvedRetention env ns ch) st.entries).1 ++
          Interband.capDeletions (Interband.MaxFiles env ns ch)
            (Interband.scanEntries st.dir now
              (Interband.resolvedRetention env ns ch)
              st.entries).2) ∧
      (∀ p ∈ (Interband.PruneChannel env now ns ch st).deleted,
        ∃ e, e ∈ st.entries ∧ e.isDir = false ∧ Interband.goExt e.name = ".json" ∧
          p = Interband.joinPath st.dir e.name) := by
  intro env now ns ch st h1 h2 h3 h4 h5
  have hscan := Interband.scanEntries_eq st.dir now
    (Interband.resolvedRetention env ns ch) st.entries
  have hrun := Interband.pruneChannel_run env now ns ch st h1 h2 h3 h4 h5
  refine ⟨by rw [hscan], by rw [hscan], by rw [hrun], ?_⟩
  intro p hp
  rw [hrun] at hp
  simp only [Interband.PruneOut.mk.injEq] at hp
  rcases List.mem_append.mp hp with hp1 | hp2
  · rw [hscan] at hp1
    simp only at hp1
    rcases List.mem_map.mp hp1 with ⟨e, he, rfl⟩
    rcases List.mem_filter.mp he with ⟨hmem, hcond⟩
    simp only [Interband.isCandidate, Bool.and_eq_true, Bool.not_eq_true',
      beq_iff_eq] at hcond
    exact ⟨e, hmem, hcond.1.1.1, hcond.1.1.2, rfl⟩
  · rcases Interband.capDeletions_mem _ _ _ hp2 with ⟨f, hf, rfl⟩
    rw [hscan] at hf
    simp only at hf
    rcases List.mem_map.mp hf with ⟨e, he, rfl⟩
    rcases List.mem_filter.mp he with ⟨hmem, hcond⟩
    simp only [Interband.isCandidate, Bool.and_eq_true, Bool.not_eq_true',
      beq_iff_eq] at hcond
    exact ⟨e, hmem, hcond.1.1.1, hcond.1.1.2, rfl⟩

/-- C3 witness: the spec's retention example — one file aged beyond the
(default 24h) window, one fresh file; pruning removes exactly the aged
one, and the prune stamp entry is untouched. -/
theorem Interband.pruneChannel_retention_witness :
    (Interband.PruneChannel (fun _ => none) 200000000000000
        "interphase" "bead"
        (Interband.ChanState.mk "d" false none true
          [Interband.DirEntry.mk ".interband-prune.stamp" false true true 200000000000000,
           Interband.DirEntry.mk "old.json" false true true 0,
           Interband.DirEntry.mk "fresh.json" false true true 200000000000000])).deleted =
      ["d/old.json"] := by
  have h := (Interband.pruneChannel_retention (fun _ => none) 200000000000000
      "interphase" "bead"
      (Interband.ChanState.mk "d" false none true
        [Interband.DirEntry.mk ".interband-prune.stamp" false true true 200000000000000,
         Interband.DirEntry.mk "old.json" false true true 0,
         Interband.DirEntry.mk "fresh.json" false true true 200000000000000])
      (by decide) (by decide) rfl (fun m hm => Option.noConfusion hm) rfl).2.2.1
  exact h.trans (by decide)

/-- C10 counterexample: the claim as stated is false of the program.
With `INTERBAND_RETENTION_SECS = -9223372037` the resolved retention is
negative, yet Go's `time.Duration(retention) * time.Second` wraps
*positive* at int64 (≈292 years), the `retention < 0` clamp at line 313
never fires, and a candidate `.json` file of strictly positive age is
kept rather than deleted. -/
theorem Interband.pruneChannel_negative_retention_counterexample :
    Interband.RetentionSeconds
        (fun k => if k = "INTERBAND_RETENTION_SECS" then some (-9223372037) else none)
        "interphase" "bead" = -9223372037 ∧
    Interband.RetentionSeconds
        (fun k => if k = "INTERBAND_RETENTION_SECS" then some (-9223372037) else none)
        "interphase" "bead" < 0 ∧
    Interband.resolvedRetention
        (fun k => if k = "INTERBAND_RETENTION_SECS" then some (-9223372037) else none)
        "interphase" "bead" = 9223372036709551616 ∧
    (0 : Int) < Interband.goSub 1000000000000000 996400000000000 ∧
    (Interband.PruneChannel
        (fun k => if k = "INTERBAND_RETENTION_SECS" then some (-9223372037) else none)
        1000000000000000 "interphase" "bead"
        (Interband.ChanState.mk "d" false none true
          [Interband.DirEntry.mk "hour.json" false true true 996400000000000])).deleted =
      [] :=
  ⟨by decide, by decide, by decide, by decide, by decide⟩

/-- C10 (amended): a negative resolved retention that is no smaller
than -9223372036 seconds (so that its nanosecond `time.Duration` does
not underflow int64) is clamped to a zero-length window rather than
causing an error or disabling pruning: the pass still succeeds, and the
age-based step then deletes exactly the candidate `.json` files whose
age is strictly positive; the spec states this clamping only for the
throttle interval, not for retention. -/
theorem Interband.pruneChannel_negative_retention :
    ∀ (env : Interband.EnvInts) (now : Int) (ns ch : String) (st : Interband.ChanState),
      Interband.trimSpace ns ≠ "" → Interband.trimSpace ch ≠ "" →
      st.dirNotExist = false →
      (∀ m, st.stampMtime = some m →
        Interband.wrapInt64 (Interband.resolvedPruneInterval env * Interband.nsPerSec) ≤
          Interband.goSub now m) →
      st.readDirOk = true →
      Interband.RetentionSeconds env ns ch < 0 →
      -9223372036 ≤ Interband.RetentionSeconds env ns ch →
      Interband.resolvedRetention env ns ch = 0 ∧
      (Interband.PruneChannel env now ns ch st).result = Except.ok () ∧
      ((Interband.scanEntries st.dir now 0 st.entries).1 =
        (st.entries.filter
            (fun e => Interband.isCandidate e &&
              decide (0 < Interband.goSub now e.modTime))).map
          (fun e => Interband.joinPath st.dir e.name)) ∧
      ((Interband.PruneChannel env now ns ch st).deleted =
        (Interband.scanEntries st.dir now 0 st.entries).1 ++
          Interband.capDeletions (Interband.MaxFiles env ns ch)
            (Interband.scanEntries st.dir now 0 st.entries).2) := by
  intro env now ns ch st h1 h2 h3 h4 h5 hneg hlo
  have hprodneg : Interband.RetentionSeconds env ns ch * Interband.nsPerSec < 0 :=
    mul_neg_of_neg_of_pos hneg (by norm_num [Interband.nsPerSec])
  have hprodlo : Interband.int64Min ≤
      Interband.RetentionSeconds env ns ch * Interband.nsPerSec := by
    have hstep : (-9223372036 : Int) * Interband.nsPerSec ≤
        Interband.RetentionSeconds env ns ch * Interband.nsPerSec :=
      mul_le_mul_of_nonneg_right hlo (by norm_num [Interband.nsPerSec])
    calc Interband.int64Min ≤ (-9223372036 : Int) * Interband.nsPerSec := by
          norm_num [Interband.int64Min, Interband.nsPerSec]
      _ ≤ Interband.RetentionSeconds env ns ch * Interband.nsPerSec := hstep
  have hwrap : Interband.wrapInt64
      (Interband.RetentionSeconds env ns ch * Interband.nsPerSec) =
      Interband.RetentionSeconds env ns ch * Interband.nsPerSec :=
    Interband.wrapInt64_eq_self _ hprodlo
      (le_trans (le_of_lt hprodneg) (by norm_num [Interband.int64Max]))
  have hmax : Interband.resolvedRetention env ns ch = 0 := by
    unfold Interband.resolvedRetention
    rw [hwrap]
    exact max_eq_right (le_of_lt hprodneg)
  have hrun := Interband.pruneChannel_run env now ns ch st h1 h2 h3 h4 h5
  rw [hmax] at hrun
  refine ⟨hmax, by rw [hrun], ?_, by rw [hrun]⟩
  rw [Interband.scanEntries_eq]

/-- C10 witness: with a global retention override of `-5` seconds, a
file one nanosecond old is deleted while a file written at `now`
survives, and the call still succeeds. -/
theorem Interband.pruneChannel_negative_retention_witness :
    Interband.RetentionSeconds
        (fun k => if k = "INTERBAND_RETENTION_SECS" then some (-5) else none)
        "interphase" "bead" < 0 ∧
    (Interband.PruneChannel
        (fun k => if k = "INTERBAND_RETENTION_SECS" then some (-5) else none) 1000
        "interphase" "bead"
        (Interband.ChanState.mk "d" false none true
          [Interband.DirEntry.mk "stale.json" false true true 999,
           Interband.DirEntry.mk "fresh.json" false true true 1000])).result = Except.ok () ∧
    (Interband.PruneChannel
        (fun k => if k = "INTERBAND_RETENTION_SECS" then some (-5) else none) 1000
        "interphase" "bead"
        (Interband.ChanState.mk "d" false none true
          [Interband.DirEntry.mk "stale.json" false true true 999,
           Interband.DirEntry.mk "fresh.json" false true true 1000])).deleted =
      ["d/stale.json"] := by
  have h := Interband.pruneChannel_negative_retention
      (fun k => if k = "INTERBAND_RETENTION_SECS" then some (-5) else none) 1000
      "interphase" "bead"
      (Interband.ChanState.mk "d" false none true
        [Interband.DirEntry.mk "stale.json" false true true 999,
         Interband.DirEntry.mk "fresh.json" false true true 1000])
      (by decide) (by decide) rfl (fun m hm => Option.noConfusion hm) rfl (by decide)
      (by decide)
  exact ⟨by decide, h.2.1, h.2.2.2.trans (by decide)⟩
